import Mathlib

/-!
Verification of the GitLens git-data service layer: a shallow embedding of
the Process Runner (single-flight de-duplication, benign-error
classification), the Git revision classification predicates, the
GitService cache facade (blame/diff/log queries, cached failures,
gitignore short-circuits, whole-file partial-result reuse) and the cache
invalidation handlers, translated from src/gitService.ts and the git
runner module.  JavaScript Maps are modelled as insertion-ordered
association lists, promises as (identity, resolved value) pairs, and the
subprocess boundary as an injected result of type Except.
-/

namespace GitLens

/-! ## Association lists (JS Map model)

JS Map semantics: get / set (replace in place, append if new) / delete.
Insertion order is preserved, matching Map iteration order. -/

/-- Lookup in an association list (models JS Map.get). -/
def alookup {α : Type} (k : String) : List (String × α) → Option α
  | [] => none
  | (k', v) :: ps => if k' = k then some v else alookup k ps

/-- Set a key in an association list: replaces the first binding in place,
appends at the end if the key is absent (models JS Map.set). -/
def aset {α : Type} (k : String) (v : α) : List (String × α) → List (String × α)
  | [] => [(k, v)]
  | (k', v') :: ps => if k' = k then (k, v) :: ps else (k', v') :: aset k v ps

/-- Delete a key from an association list (models JS Map.delete). -/
def aerase {α : Type} (k : String) : List (String × α) → List (String × α)
  | [] => []
  | (k', v') :: ps => if k' = k then ps else (k', v') :: aerase k ps

/-! ## Character and string helpers -/

/-- The apostrophe character, written via its code point. -/
def quoteChar : Char := Char.ofNat 39

/-- The apostrophe as a one-character string. -/
def sq : String := String.mk [quoteChar]

/-- ASCII lower-casing of a string, modelling String.prototype.toLowerCase
on the ASCII range used by cache keys and warning patterns. -/
def toLowerStr (s : String) : String := String.mk (s.data.map Char.toLower)

/-! ## Git revision classification (Git.shaRegex and friends)

Translated from the static regexes of the Git class:
  shaRegex              = ^[0-9a-f]{40}(\^[0-9]*?)??( -)?$
  shaStrictRegex        = ^[0-9a-f]{40}$
  stagedUncommittedRegex = ^[0]{40}(\^[0-9]*?)??:$
  uncommittedRegex      = ^[0]{40}(\^[0-9]*?)??:??$
Each is an anchored regular language; we embed each as an executable
acceptor on the character list of the candidate string. -/

/-- Lowercase-hex digit test, [0-9a-f]. -/
def isHexLower (c : Char) : Bool :=
  (('0' ≤ c) && (c ≤ '9')) || (('a' ≤ c) && (c ≤ 'f'))

/-- Consume exactly n characters satisfying p; some rest on success. -/
def takeClass (p : Char → Bool) : Nat → List Char → Option (List Char)
  | 0, cs => some cs
  | _ + 1, [] => none
  | n + 1, c :: cs => if p c then takeClass p n cs else none

/-- Drop a leading run of decimal digits. -/
def dropDigits : List Char → List Char
  | [] => []
  | c :: cs => if c.isDigit then dropDigits cs else c :: cs

/-- Strip an optional caret-with-digits group (\^[0-9]*?)??.  The suffixes
that may follow in the revision regexes never start with a digit, so
maximal-munch digit consumption recognizes exactly the regex language. -/
def stripCaret : List Char → List Char
  | '^' :: rest => dropDigits rest
  | cs => cs

/-- Acceptor for the shaRegex suffix language (\^[0-9]*?)??( -)?$: empty,
" -", "^digits" or "^digits -". -/
def shaTail (cs : List Char) : Bool :=
  stripCaret cs == [] || stripCaret cs == [' ', '-']

/-- Acceptor for the uncommittedRegex suffix (\^[0-9]*?)??:??$: empty,
":", "^digits" or "^digits:". -/
def uncTail (cs : List Char) : Bool :=
  stripCaret cs == [] || stripCaret cs == [':']

/-- Acceptor for the stagedUncommittedRegex suffix (\^[0-9]*?)??:$:
":" or "^digits:". -/
def stagedTail (cs : List Char) : Bool :=
  stripCaret cs == [':']

namespace Git

/-- Git.shaRegex.test: 40 lowercase-hex characters, an optional
caret-with-digits suffix, an optional " -" suffix. -/
def shaRegexTest (s : String) : Bool :=
  match takeClass isHexLower 40 s.data with
  | some rest => shaTail rest
  | none => false

/-- Git.shaStrictRegex.test: exactly 40 lowercase-hex characters. -/
def shaStrictRegexTest (s : String) : Bool :=
  match takeClass isHexLower 40 s.data with
  | some rest => rest.isEmpty
  | none => false

/-- Git.uncommittedRegex.test: 40 zeros, optional caret-with-digits,
optional trailing colon. -/
def uncommittedRegexTest (s : String) : Bool :=
  match takeClass (fun c => c = '0') 40 s.data with
  | some rest => uncTail rest
  | none => false

/-- Git.stagedUncommittedRegex.test: 40 zeros, optional caret-with-digits,
mandatory trailing colon. -/
def stagedUncommittedRegexTest (s : String) : Bool :=
  match takeClass (fun c => c = '0') 40 s.data with
  | some rest => stagedTail rest
  | none => false

/-- Git.uncommittedSha: the all-zero working-tree sentinel. -/
def uncommittedSha : String := "0000000000000000000000000000000000000000"

/-- Git.stagedUncommittedSha: the all-zero index sentinel with colon. -/
def stagedUncommittedSha : String := "0000000000000000000000000000000000000000:"

/-- Git.isSha: tests the candidate against shaRegex. -/
def isSha (sha : String) : Bool := shaRegexTest sha

/-- Git.isStagedUncommitted: undefined maps to false, otherwise tests
against stagedUncommittedRegex. -/
def isStagedUncommitted (sha : Option String) : Bool :=
  match sha with
  | none => false
  | some s => stagedUncommittedRegexTest s

/-- Git.isUncommitted: undefined maps to false, otherwise tests against
uncommittedRegex. -/
def isUncommitted (sha : Option String) : Bool :=
  match sha with
  | none => false
  | some s => uncommittedRegexTest s

end Git

/-! ## Warning-pattern matching (GitWarnings, defaultExceptionHandler)

The ten GitWarnings regexes are unanchored, case-insensitive patterns
built from literal runs separated by lazy wildcards (.*?), with one
pattern using an alternation.  We embed each as a list of alternatives,
each alternative a sequence of literals matched in order; the wildcard
between consecutive literals matches any characters except line
terminators (the semantics of . in a JS regex), while the implicit
leading gap of an unanchored search is unrestricted. -/

/-- Line-terminator test for the regex wildcard (JS . excludes these). -/
def isRegexNL (c : Char) : Bool := c == '\n' || c == '\r'

/-- Consume a literal from the front of the input: some rest on success. -/
def dropLit : List Char → List Char → Option (List Char)
  | [], cs => some cs
  | _ :: _, [] => none
  | l :: ls, c :: cs => if c = l then dropLit ls cs else none

/-- Backtracking matcher: does the literal sequence occur in order
starting here, with only non-line-terminator characters skipped between
(and before) literals?  Literals are nonempty (head plus tail), so each
recursive call strictly shrinks the input; fuel bounds the recursion and
never runs out when initialized to the input length plus one. -/
def matchSeqF : Nat → List (Char × List Char) → List Char → Bool
  | _, [], _ => true
  | 0, _ :: _, _ => false
  | _ + 1, _ :: _, [] => false
  | fuel + 1, (c, ls) :: lits, ch :: cs =>
    (if ch = c then
      match dropLit ls cs with
      | some rest => matchSeqF fuel lits rest
      | none => false
    else false)
    || (!isRegexNL ch && matchSeqF fuel ((c, ls) :: lits) cs)

/-- Matcher entry point at a fixed start position. -/
def matchSeq (lits : List (Char × List Char)) (cs : List Char) : Bool :=
  matchSeqF (cs.length + 1) lits cs

/-- Unanchored search: try the sequence at every start position
(regex test scans all starts, with no restriction on the leading gap). -/
def testSeq (lits : List (Char × List Char)) : List Char → Bool
  | [] => matchSeq lits []
  | c :: cs => matchSeq lits (c :: cs) || testSeq lits cs

/-- Split a nonempty literal string into head character and tail. -/
def mkLit (s : String) : Char × List Char :=
  match s.data with
  | c :: cs => (c, cs)
  | [] => (' ', [])

/-- Case-insensitive unanchored test of one pattern (alternatives of
literal sequences, stored lowercase) against a message. -/
def testPattern (p : List (List String)) (msg : String) : Bool :=
  p.any (fun lits => testSeq (lits.map mkLit) (toLowerStr msg).data)

/-- The GitWarnings table, translated regex by regex (literals lowered
for the /i flag; sq stands for the single-quote character that wraps the
lazy wildcard in the quoted patterns):
  notARepository:         Not a git repository
  outsideRepository:      is outside repository
  noPath:                 no such path
  noCommits:              does not have any commits
  notFound:               Path sq .*? sq does not exist in
  foundButNotInRevision:  Path sq .*? sq exists on disk, but not in
  headNotABranch:         HEAD does not point to a branch
  noUpstream:             no upstream configured for branch sq (.*?) sq
  unknownRevision:        ambiguous argument sq .*? sq colon unknown
                          revision or path not in the working tree
                          | not stored as a remote-tracking branch
  mustRunInWorkTree:      this operation must be run in a work tree -/
def GitWarnings : List (List (List String)) :=
  [ [["not a git repository"]],
    [["is outside repository"]],
    [["no such path"]],
    [["does not have any commits"]],
    [["path " ++ sq, sq ++ " does not exist in"]],
    [["path " ++ sq, sq ++ " exists on disk, but not in"]],
    [["head does not point to a branch"]],
    [["no upstream configured for branch " ++ sq, sq]],
    [["ambiguous argument " ++ sq, sq ++ ": unknown revision or path not in the working tree"],
      ["not stored as a remote-tracking branch"]],
    [["this operation must be run in a work tree"]] ]

/-- Does the message match any GitWarnings pattern? (the loop body of
defaultExceptionHandler). -/
def isGitWarning (msg : String) : Bool :=
  GitWarnings.any (fun p => testPattern p msg)

/-- defaultExceptionHandler: a truthy message matching a GitWarnings
pattern is logged as a warning and the handler returns the empty string;
otherwise the original exception is logged and re-thrown.  Thrown
exceptions are modelled with Except.error carrying the message. -/
def defaultExceptionHandler (ex : String) : Except String String :=
  if ex = "" then Except.error ex
  else if isGitWarning ex then Except.ok ""
  else Except.error ex

/-! ## Process Runner (the git function and its pendingCommands map)

The runner keys in-flight invocations by an optional correlation key, the
working directory, and the space-joined caller argument list (the key is
computed before the two safety arguments are spliced in).  A promise is
(identity) a Nat; spawned subprocesses are recorded for the
invocation-count spy. -/

/-- The pendingCommands map key: correlationKey prefix (when present),
then the bracketed cwd and the joined argument list. -/
def gitCommandKey (correlationKey : Option String) (cwd : String)
    (args : List String) : String :=
  (match correlationKey with
    | some ck => ck ++ ":"
    | none => "")
  ++ "[" ++ cwd ++ "] git " ++ String.intercalate " " args

/-- State of the Process Runner: the pendingCommands map, a fresh-promise
counter, and the list of spawned subprocesses (cwd and full argv). -/
structure RunnerState where
  pending : List (String × Nat)
  nextId : Nat
  spawned : List (String × List String)
  deriving DecidableEq

/-- Runner state before any invocation. -/
def initialRunnerState : RunnerState :=
  { pending := [], nextId := 1, spawned := [] }

/-- Result of one git(...) call entry: the promise returned to the caller,
whether the caller joined an existing in-flight promise, and the new
runner state. -/
structure RunnerOut where
  prom : Nat
  waiting : Bool
  state : RunnerState
  deriving DecidableEq

/-- The git function up to its await: an in-flight promise with the same
command key is returned as-is (waiting); otherwise the safety arguments
are spliced in front, a subprocess is spawned, and the fresh promise is
recorded in pendingCommands. -/
def gitRequest (s : RunnerState) (correlationKey : Option String)
    (cwd : String) (args : List String) : RunnerOut :=
  let command := gitCommandKey correlationKey cwd args
  match alookup command s.pending with
  | some pid => { prom := pid, waiting := true, state := s }
  | none =>
    let spawnArgs := ["-c", "core.quotepath=false", "-c", "color.ui=false"] ++ args
    { prom := s.nextId,
      waiting := false,
      state := { pending := aset command s.nextId s.pending,
                 nextId := s.nextId + 1,
                 spawned := s.spawned ++ [(cwd, spawnArgs)] } }

/-- The finally block of the git function: once the promise settles the
command key is removed from pendingCommands. -/
def gitSettle (s : RunnerState) (correlationKey : Option String)
    (cwd : String) (args : List String) : RunnerState :=
  { s with pending := aerase (gitCommandKey correlationKey cwd args) s.pending }

/-- Number of in-flight promises recorded for one command key. -/
def pendingCount (s : RunnerState) (k : String) : Nat :=
  s.pending.countP (fun p => p.1 == k)

/-! ## Blame domain model (IGitBlame and friends) -/

/-- One blame line record: owning revision, final line number, original
line number. -/
structure IGitCommitLine where
  sha : String
  line : Nat
  originalLine : Nat
  deriving DecidableEq

/-- A commit as carried by a blame result (GitCommit); the constructor
argument order follows new GitCommit(type, repoPath, sha, fileName,
author, date, message, lines, originalFileName, previousSha,
previousFileName).  The type tag field is named ctype here because type
is reserved. -/
structure GitCommit where
  ctype : String
  repoPath : String
  sha : String
  fileName : String
  author : String
  date : Nat
  message : String
  lines : List IGitCommitLine
  originalFileName : Option String
  previousSha : Option String
  previousFileName : Option String
  deriving DecidableEq

/-- Aggregated author record (IGitAuthor). -/
structure IGitAuthor where
  name : String
  lineCount : Nat
  deriving DecidableEq

/-- A whole-file blame result (IGitBlame): author aggregation, sha-keyed
commit map, and the per-line records, maps in insertion order. -/
structure IGitBlame where
  repoPath : String
  authors : List (String × IGitAuthor)
  commits : List (String × GitCommit)
  lines : List IGitCommitLine
  deriving DecidableEq

/-- A range-restricted blame view (IGitBlameLines): a blame plus the full
original line list. -/
structure IGitBlameLines extends IGitBlame where
  allLines : List IGitCommitLine
  deriving DecidableEq

/-- Stable insertion of an author into a list sorted by descending
lineCount: placed after every earlier author with an equal or larger
count, matching the stable JS sort with comparator (a, b) =>
b.lineCount - a.lineCount. -/
def insertAuthorDesc (a : IGitAuthor) : List IGitAuthor → List IGitAuthor
  | [] => [a]
  | b :: bs => if b.lineCount < a.lineCount then a :: b :: bs
               else b :: insertAuthorDesc a bs

/-- Stable descending sort by lineCount. -/
def sortAuthorsDesc (l : List IGitAuthor) : List IGitAuthor :=
  l.foldl (fun acc a => insertAuthorDesc a acc) []

/-- getBlameForRangeSync: a pure synchronous restriction of a whole-file
blame to the inclusive line range [startLine, endLine].  Empty blames and
whole-file ranges are returned unchanged (plus allLines); otherwise the
line records are sliced, the touched revisions collected, each touched
commit copied with only its in-range lines, and the author aggregation
rebuilt from the copies and re-sorted descending by line count. -/
def getBlameForRangeSync (blame : IGitBlame) (startLine endLine : Nat) :
    IGitBlameLines :=
  if blame.lines.length = 0 then { blame with allLines := blame.lines }
  else if startLine = 0 ∧ endLine = blame.lines.length - 1 then
    { blame with allLines := blame.lines }
  else
    let lines := (blame.lines.drop startLine).take (endLine + 1 - startLine)
    let shas := lines.map (fun l => l.sha)
    let step := fun (acc : List (String × GitCommit) × List (String × IGitAuthor))
                    (p : String × GitCommit) =>
      let c := p.2
      if shas.contains c.sha then
        let commit : GitCommit :=
          { c with ctype := "blame",
                   lines := c.lines.filter
                     (fun l => startLine ≤ l.line && l.line ≤ endLine) }
        let commits := aset c.sha commit acc.1
        let authors :=
          match alookup commit.author acc.2 with
          | some a =>
            aset commit.author
              { a with lineCount := a.lineCount + commit.lines.length } acc.2
          | none =>
            aset commit.author
              { name := commit.author, lineCount := commit.lines.length } acc.2
        (commits, authors)
      else acc
    let cm := blame.commits.foldl step ([], [])
    let sortedAuthors := sortAuthorsDesc (cm.2.map (fun p => p.2))
    { repoPath := blame.repoPath,
      authors := sortedAuthors.map (fun a => (a.name, a)),
      commits := cm.1,
      lines := lines,
      allLines := blame.lines }

/-! ## Git Service cache facade

State of GitService as far as the claims observe it: the per-file git
cache (normalized-lowercase-path-keyed entries of slot-keyed cached
promises), the remotes cache, a fresh-promise counter, an
invocation-count spy on the Process Runner, the onDidBlameFail event
payloads and the number of onDidChangeGitCache firings.  A cached promise
is its identity (itemId) plus its eventual resolved value; the static
EmptyPromise has identity 0 and fresh promises get identities from the
counter starting at 1.  The subprocess-plus-parser boundary of each query
is an injected Except value (error models a thrown exception). -/

/-- A parsed log commit, reduced to the fields the service inspects. -/
structure GitLogCommit where
  sha : String
  deriving DecidableEq

/-- A parsed log result (IGitLog), reduced to its sha-keyed commit map. -/
structure IGitLog where
  repoPath : String
  commits : List (String × GitLogCommit)
  deriving DecidableEq

/-- Resolved value of a cached promise: a blame, diff or log result
(diff payloads are never inspected by the claims). -/
inductive GitData where
  | blameData (b : IGitBlame)
  | diffData
  | logData (l : IGitLog)
  deriving DecidableEq

/-- One cached slot (ICachedBlame / ICachedDiff / ICachedLog): the stored
promise (identity and resolved value; a none result models a promise of
undefined) and the optional captured error message. -/
structure CachedItem where
  itemId : Nat
  result : Option GitData
  errorMessage : Option String
  deriving DecidableEq

/-- A per-file cache entry (GitCacheEntry): its own cache key and the
slot-keyed map of cached items. -/
structure GitCacheEntry where
  key : String
  cache : List (String × CachedItem)
  deriving DecidableEq

/-- Iterables.every over the entry values: true when every cached slot
carries an error message (vacuously true for an empty entry). -/
def hasErrors (e : GitCacheEntry) : Bool :=
  e.cache.all (fun p => p.2.errorMessage.isSome)

/-- Observable GitService state. -/
structure ServiceState where
  gitCache : List (String × GitCacheEntry)
  remotesCache : List (String × List String)
  nextId : Nat
  invocations : Nat
  blameFailEvents : List String
  changeEvents : Nat
  deriving DecidableEq

/-- The initial service state. -/
def initialServiceState : ServiceState :=
  { gitCache := [], remotesCache := [], nextId := 1, invocations := 0,
    blameFailEvents := [], changeEvents := 0 }

/-- Configuration visible to the service: the caching flag and the loaded
gitignore matcher (some f when a .gitignore was loaded; f file = true
models ignore.filter([file]).length = 0, i.e. the file is ignored). -/
structure GitConfig where
  useCaching : Bool
  gitignore : Option (String → Bool)

/-- Modelled from the spec: Strings.normalizePath (the Path Normalizer,
whose source module is not under src/) — "separator normalization";
backslash separators become forward slashes. -/
def normalizePath (fileName : String) : String :=
  String.mk (fileName.data.map (fun c => if c = '\\' then '/' else c))

/-- getCacheEntryKey: the normalized, lower-cased file path. -/
def getCacheEntryKey (fileName : String) : String :=
  toLowerStr (normalizePath fileName)

/-- Git.splitPath with extract = false (as the service calls it): when a
non-empty repoPath is given, both are normalized and a repoPath prefix is
stripped case-insensitively from the file name; otherwise both are just
normalized (an absent repoPath is treated as the empty string). -/
def splitPath (fileName : String) (repoPath : Option String) : String × String :=
  match repoPath with
  | some rp =>
    if rp = "" then (normalizePath fileName, "")
    else
      let f := normalizePath fileName
      let r := normalizePath rp
      let nr := toLowerStr (if r.endsWith "/" then r else r ++ "/")
      if (toLowerStr f).startsWith nr then (f.drop nr.length, r) else (f, r)
  | none => (normalizePath fileName, "")

/-- The blame slot key: blame or blame:sha. -/
def blameKey : Option String → String
  | some sha => "blame:" ++ sha
  | none => "blame"

/-- The diff slot key: diff, diff:sha1, or diff:sha1:sha2. -/
def diffKey (sha1 sha2 : Option String) : String :=
  "diff"
  ++ (match sha1 with | some s1 => ":" ++ s1 | none => "")
  ++ (match sha2 with | some s2 => ":" ++ s2 | none => "")

/-- The log slot key: log, log:sha, log:n5, or log:sha:n5. -/
def logKey (sha : Option String) (maxCount : Option Nat) : String :=
  "log"
  ++ (match sha with | some s => ":" ++ s | none => "")
  ++ (match maxCount with | some n => ":n" ++ toString n | none => "")

/-- Record an onDidBlameFail firing carrying a cache key. -/
def fireBlameFail (s : ServiceState) (k : String) : ServiceState :=
  { s with blameFailEvents := s.blameFailEvents ++ [k] }

/-- Store a cached item under (cacheKey, slotKey), mutating the existing
entry in place (entry.set). -/
def setSlot (s : ServiceState) (cacheKey slotKey : String)
    (item : CachedItem) : ServiceState :=
  match alookup cacheKey s.gitCache with
  | some e =>
    let e2 : GitCacheEntry := { e with cache := aset slotKey item e.cache }
    { s with gitCache := aset cacheKey e2 s.gitCache }
  | none => s

/-- View a cached result as a blame. -/
def asBlame : Option GitData → Option IGitBlame
  | some (GitData.blameData b) => some b
  | _ => none

/-- View a cached result as a diff (its payload is unit here). -/
def asDiff : Option GitData → Option Unit
  | some GitData.diffData => some ()
  | _ => none

/-- View a cached result as a log. -/
def asLog : Option GitData → Option IGitLog
  | some (GitData.logData l) => some l
  | _ => none

/-- blame.commits.has(sha). -/
def hasCommitB (b : IGitBlame) (sha : String) : Bool :=
  (alookup sha b.commits).isSome

/-- log.commits.has(sha). -/
def hasCommitL (l : IGitLog) (sha : String) : Bool :=
  (alookup sha l.commits).isSome

/-- Whether the gitignore matcher classifies the file as ignored
(ignore && !ignore.filter([file]).length). -/
def isIgnored (cfg : GitConfig) (file : String) : Bool :=
  match cfg.gitignore with
  | some ign => ign file
  | none => false

/-- The net effect of _getBlameForFile together with the entry.set of the
returned promise performed by getBlameForFile: a fresh promise identity
is allocated; on a gitignored file the query short-circuits (no runner
invocation), fires onDidBlameFail with the entry key when an entry with a
truthy key exists, and the stored promise resolves to undefined; otherwise
the runner is invoked once and on success the parsed blame is stored and
returned, while on a thrown error (with an entry) the slot is replaced by
the pre-resolved EmptyPromise (identity 0) carrying the error message and
onDidBlameFail fires. -/
def blameRun (cfg : GitConfig) (s : ServiceState) (fsPath : String)
    (repoPath : Option String) (cacheKey slotKey : String)
    (entryExists : Bool) (gitResult : Except String (Option IGitBlame)) :
    (Nat × Option IGitBlame) × ServiceState :=
  let newId := s.nextId
  let s1 := { s with nextId := newId + 1 }
  let file := (splitPath fsPath repoPath).1
  if isIgnored cfg file then
    let s2 := if entryExists
      then setSlot s1 cacheKey slotKey
        { itemId := newId, result := none, errorMessage := none }
      else s1
    let s3 := if entryExists ∧ cacheKey ≠ "" then fireBlameFail s2 cacheKey else s2
    ((newId, none), s3)
  else
    let s2 := { s1 with invocations := s1.invocations + 1 }
    match gitResult with
    | Except.ok b =>
      let s3 := if entryExists
        then setSlot s2 cacheKey slotKey
          { itemId := newId, result := b.map GitData.blameData,
            errorMessage := none }
        else s2
      ((newId, b), s3)
    | Except.error msg =>
      if entryExists then
        let s3 := setSlot s2 cacheKey slotKey
          { itemId := 0, result := none, errorMessage := some msg }
        ((newId, none), fireBlameFail s3 cacheKey)
      else ((newId, none), s2)

/-- getBlameForFile: computes the slot key from the revision; with caching
on, an exact cache hit returns the stored promise; on an exact miss for a
revision-scoped key, a resolved whole-file blame containing the revision
is returned instead (partial-result reuse); otherwise an entry is created
if needed and the query chain runs, storing the resulting promise. -/
def getBlameForFile (cfg : GitConfig) (s : ServiceState) (fsPath : String)
    (repoPath : Option String) (sha : Option String)
    (gitResult : Except String (Option IGitBlame)) :
    (Nat × Option IGitBlame) × ServiceState :=
  let slotKey := blameKey sha
  if cfg.useCaching then
    let cacheKey := getCacheEntryKey fsPath
    match alookup cacheKey s.gitCache with
    | some entry =>
      match alookup slotKey entry.cache with
      | some cached => ((cached.itemId, asBlame cached.result), s)
      | none =>
        let whole : Option (Nat × IGitBlame) :=
          if slotKey = "blame" then none
          else
            match alookup "blame" entry.cache with
            | some cachedWhole =>
              match asBlame cachedWhole.result with
              | some b =>
                if hasCommitB b (sha.getD "") then some (cachedWhole.itemId, b)
                else none
              | none => none
            | none => none
        match whole with
        | some pr => ((pr.1, some pr.2), s)
        | none => blameRun cfg s fsPath repoPath cacheKey slotKey true gitResult
    | none =>
      let newEntry : GitCacheEntry := { key := cacheKey, cache := [] }
      let s1 := { s with gitCache := aset cacheKey newEntry s.gitCache }
      blameRun cfg s1 fsPath repoPath cacheKey slotKey true gitResult
  else
    blameRun cfg s fsPath repoPath "" slotKey false gitResult

/-- The net effect of _getDiffForFile together with the entry.set of the
returned promise: one runner invocation; on success the parsed diff is
stored and returned; on a thrown error (with an entry) the slot is
replaced by the pre-resolved EmptyPromise carrying the error message —
no event of any kind is fired. -/
def diffRun (s : ServiceState) (cacheKey slotKey : String)
    (entryExists : Bool) (gitResult : Except String (Option Unit)) :
    (Nat × Option Unit) × ServiceState :=
  let newId := s.nextId
  let s1 := { s with nextId := newId + 1 }
  let s2 := { s1 with invocations := s1.invocations + 1 }
  match gitResult with
  | Except.ok d =>
    let s3 := if entryExists
      then setSlot s2 cacheKey slotKey
        { itemId := newId, result := d.map (fun _ => GitData.diffData),
          errorMessage := none }
      else s2
    ((newId, d), s3)
  | Except.error msg =>
    if entryExists then
      ((newId, none),
        setSlot s2 cacheKey slotKey
          { itemId := 0, result := none, errorMessage := some msg })
    else ((newId, none), s2)

/-- getDiffForFile: exact-key caching only (no whole-file reuse, no
gitignore consultation). -/
def getDiffForFile (cfg : GitConfig) (s : ServiceState) (fileName : String)
    (sha1 sha2 : Option String) (gitResult : Except String (Option Unit)) :
    (Nat × Option Unit) × ServiceState :=
  let slotKey := diffKey sha1 sha2
  if cfg.useCaching then
    let cacheKey := getCacheEntryKey fileName
    match alookup cacheKey s.gitCache with
    | some entry =>
      match alookup slotKey entry.cache with
      | some cached => ((cached.itemId, asDiff cached.result), s)
      | none => diffRun s cacheKey slotKey true gitResult
    | none =>
      let newEntry : GitCacheEntry := { key := cacheKey, cache := [] }
      let s1 := { s with gitCache := aset cacheKey newEntry s.gitCache }
      diffRun s1 cacheKey slotKey true gitResult
  else
    diffRun s "" slotKey false gitResult

/-- The net effect of _getLogForFile together with the entry.set of the
returned promise: a gitignored file short-circuits to a promise of
undefined with no runner invocation and no event; otherwise one runner
invocation, storing the parsed log on success, or (with an entry) the
EmptyPromise placeholder carrying the error message on a thrown error —
no event in either case. -/
def logRun (cfg : GitConfig) (s : ServiceState) (fileName : String)
    (repoPath : Option String) (cacheKey slotKey : String)
    (entryExists : Bool) (gitResult : Except String (Option IGitLog)) :
    (Nat × Option IGitLog) × ServiceState :=
  let newId := s.nextId
  let s1 := { s with nextId := newId + 1 }
  let file := (splitPath fileName repoPath).1
  if isIgnored cfg file then
    let s2 := if entryExists
      then setSlot s1 cacheKey slotKey
        { itemId := newId, result := none, errorMessage := none }
      else s1
    ((newId, none), s2)
  else
    let s2 := { s1 with invocations := s1.invocations + 1 }
    match gitResult with
    | Except.ok lg =>
      let s3 := if entryExists
        then setSlot s2 cacheKey slotKey
          { itemId := newId, result := lg.map GitData.logData,
            errorMessage := none }
        else s2
      ((newId, lg), s3)
    | Except.error msg =>
      if entryExists then
        ((newId, none),
          setSlot s2 cacheKey slotKey
            { itemId := 0, result := none, errorMessage := some msg })
      else ((newId, none), s2)

/-- getLogForFile: caching applies only for rangeless, forward queries;
an exact hit returns the stored promise; on an exact miss with a
whole-file log entry present, a revisionless query returns the whole-file
promise outright, and a revision-scoped query returns it only when the
resolved whole-file log contains the revision. -/
def getLogForFile (cfg : GitConfig) (s : ServiceState) (fileName : String)
    (repoPath : Option String) (sha : Option String) (maxCount : Option Nat)
    (range : Option (Nat × Nat)) (reverse : Bool)
    (gitResult : Except String (Option IGitLog)) :
    (Nat × Option IGitLog) × ServiceState :=
  let slotKey := logKey sha maxCount
  if cfg.useCaching && range.isNone && !reverse then
    let cacheKey := getCacheEntryKey fileName
    match alookup cacheKey s.gitCache with
    | some entry =>
      match alookup slotKey entry.cache with
      | some cached => ((cached.itemId, asLog cached.result), s)
      | none =>
        let whole : Option (Nat × Option IGitLog) :=
          if slotKey = "log" then none
          else
            match alookup "log" entry.cache with
            | some cachedLog =>
              match sha with
              | none => some (cachedLog.itemId, asLog cachedLog.result)
              | some sh =>
                match asLog cachedLog.result with
                | some lg =>
                  if hasCommitL lg sh then some (cachedLog.itemId, some lg)
                  else none
                | none => none
            | none => none
        match whole with
        | some pr => (pr, s)
        | none => logRun cfg s fileName repoPath cacheKey slotKey true gitResult
    | none =>
      let newEntry : GitCacheEntry := { key := cacheKey, cache := [] }
      let s1 := { s with gitCache := aset cacheKey newEntry s.gitCache }
      logRun cfg s1 fileName repoPath cacheKey slotKey true gitResult
  else
    logRun cfg s fileName repoPath "" slotKey false gitResult

/-! ## Cache invalidation -/

/-- Reason passed to _removeCachedEntry. -/
inductive RemoveCacheReason where
  | documentClosed
  | documentSaved
  deriving DecidableEq

/-- The DocumentSchemes.File scheme. -/
def schemeFile : String := "file"

/-- _removeCachedEntry: no-op when caching is off or the document is not a
file; on save, an entry whose cached content is entirely error
placeholders is preserved (broken blame is not re-attempted); otherwise
the entry is deleted and, on save only, onDidChangeGitCache fires. -/
def removeCachedEntry (cfg : GitConfig) (s : ServiceState)
    (docFileName docScheme : String) (reason : RemoveCacheReason) :
    ServiceState :=
  if !cfg.useCaching then s
  else if docScheme ≠ schemeFile then s
  else
    let cacheKey := getCacheEntryKey docFileName
    let savedSkip : Bool :=
      match reason, alookup cacheKey s.gitCache with
      | RemoveCacheReason.documentSaved, some entry => hasErrors entry
      | _, _ => false
    if savedSkip then s
    else if (alookup cacheKey s.gitCache).isSome then
      let s1 := { s with gitCache := aerase cacheKey s.gitCache }
      match reason with
      | RemoveCacheReason.documentSaved =>
        { s1 with changeEvents := s1.changeEvents + 1 }
      | RemoveCacheReason.documentClosed => s1
    else s

/-- _onGitChanged (the .git/index watcher callback): clears the per-file
git cache and fires onDidChangeGitCache.  The remotes cache is not
touched here. -/
def onGitChanged (s : ServiceState) : ServiceState :=
  { s with gitCache := [], changeEvents := s.changeEvents + 1 }

/-- The caching-disabled branch of _onConfigurationChanged: clears both
the git cache and the remotes cache, firing no change event. -/
def onCachingDisabled (s : ServiceState) : ServiceState :=
  { s with gitCache := [], remotesCache := [] }

/-- A freshly created, empty cache entry for a cache key. -/
def freshEntry (ck : String) : GitCacheEntry := { key := ck, cache := [] }

/-- Replace the git cache of a state. -/
def withCache (s : ServiceState) (gc : List (String × GitCacheEntry)) :
    ServiceState :=
  { s with gitCache := gc }

/-- Allocate a promise identity and count one runner invocation. -/
def bumpRun (s : ServiceState) : ServiceState :=
  { s with nextId := s.nextId + 1, invocations := s.invocations + 1 }

/-- Allocate a promise identity without any runner invocation. -/
def bumpId (s : ServiceState) : ServiceState :=
  { s with nextId := s.nextId + 1 }

/-- Build a cached item from its three fields. -/
def mkItem (id : Nat) (r : Option GitData) (e : Option String) : CachedItem :=
  { itemId := id, result := r, errorMessage := e }

/-! ## Concrete fixtures used by witnesses and counterexamples -/

/-- Caching enabled, no gitignore matcher loaded. -/
def cfgC : GitConfig := { useCaching := true, gitignore := none }

/-- Caching enabled, a gitignore matcher that ignores every file. -/
def cfgIgnAll : GitConfig := { useCaching := true, gitignore := some (fun _ => true) }

/-- A blame line owned by revision A below line 50 and by B from there. -/
def mkLineAB (i : Nat) : IGitCommitLine :=
  { sha := if i < 50 then "A" else "B", line := i, originalLine := i }

/-- The hundred line records of the two-revision scenario. -/
def linesAB : List IGitCommitLine := (List.range 100).map mkLineAB

/-- Revision A: lines 0-49, author Alice. -/
def commitA : GitCommit :=
  { ctype := "blame", repoPath := "repo", sha := "A", fileName := "f.ts",
    author := "Alice", date := 1, message := "ma",
    lines := (List.range 50).map mkLineAB,
    originalFileName := none, previousSha := none, previousFileName := none }

/-- Revision B: lines 50-99, author Bob. -/
def commitB : GitCommit :=
  { ctype := "blame", repoPath := "repo", sha := "B", fileName := "f.ts",
    author := "Bob", date := 2, message := "mb",
    lines := ((List.range 50).map (fun i => i + 50)).map mkLineAB,
    originalFileName := none, previousSha := none, previousFileName := none }

/-- A whole-file blame of 100 lines: 0-49 by revision A, 50-99 by B. -/
def blameAB : IGitBlame :=
  { repoPath := "repo",
    authors := [("Alice", { name := "Alice", lineCount := 50 }),
                ("Bob", { name := "Bob", lineCount := 50 })],
    commits := [("A", commitA), ("B", commitB)],
    lines := linesAB }

/-- An all-placeholder cache entry (a known-failing file). -/
def entryErrW : GitCacheEntry :=
  { key := "a.ts",
    cache := [("blame", { itemId := 0, result := none, errorMessage := some "e" })] }

/-- A cache entry holding a successful blame promise. -/
def entryOkW : GitCacheEntry :=
  { key := "b.ts",
    cache := [("blame", { itemId := 3, result := none, errorMessage := none })] }

/-- A service state caching one failing and one healthy file. -/
def stateW : ServiceState :=
  { initialServiceState with
      gitCache := [("a.ts", entryErrW), ("b.ts", entryOkW)], nextId := 4 }

/-- A one-commit whole-file blame used by the reuse witness. -/
def blameWhole : IGitBlame :=
  { repoPath := "repo", authors := [], commits := [("A", commitA)], lines := [] }

/-- An entry caching only the whole-file blame of blameWhole. -/
def entryWhole : GitCacheEntry :=
  { key := "f.ts",
    cache := [("blame",
      { itemId := 7, result := some (GitData.blameData blameWhole),
        errorMessage := none })] }

/-- A one-commit whole-file log used by the reuse witness. -/
def logWhole : IGitLog := { repoPath := "repo", commits := [("A", { sha := "A" })] }

/-- An entry caching only the whole-file log of logWhole. -/
def entryWholeLog : GitCacheEntry :=
  { key := "g.ts",
    cache := [("log",
      { itemId := 9, result := some (GitData.logData logWhole),
        errorMessage := none })] }

/-- A service state caching the whole-file blame and log entries. -/
def stateWhole : ServiceState :=
  { initialServiceState with
      gitCache := [("f.ts", entryWhole), ("g.ts", entryWholeLog)], nextId := 20 }

/-! ## Association-list and matcher lemmas -/

theorem alookup_aset_self {α : Type} (k : String) (v : α) (l : List (String × α)) :
    alookup k (aset k v l) = some v := by
  induction l with
  | nil => simp [aset, alookup]
  | cons p ps ih =>
    by_cases h : p.1 = k
    · simp [aset, alookup, h]
    · simp [aset, alookup, h, ih]

theorem alookup_aset_ne {α : Type} {k k' : String} (h : k' ≠ k) (v : α)
    (l : List (String × α)) : alookup k' (aset k v l) = alookup k' l := by
  have h' : k ≠ k' := Ne.symm h
  induction l with
  | nil => simp [aset, alookup, h, h']
  | cons p ps ih =>
    by_cases hk : p.1 = k
    · subst hk
      simp [aset, alookup, h, h']
    · by_cases hk' : p.1 = k' <;> simp [aset, alookup, h, h', hk, hk', ih]

theorem alookup_aerase_ne {α : Type} {k k' : String} (h : k' ≠ k)
    (l : List (String × α)) : alookup k' (aerase k l) = alookup k' l := by
  have h' : k ≠ k' := Ne.symm h
  induction l with
  | nil => simp [aerase]
  | cons p ps ih =>
    by_cases hk : p.1 = k
    · subst hk
      simp [aerase, alookup, h, h']
    · by_cases hk' : p.1 = k' <;> simp [aerase, alookup, h, h', hk, hk', ih]

theorem aerase_of_alookup_none {α : Type} {k : String} {l : List (String × α)}
    (h : alookup k l = none) : aerase k l = l := by
  induction l with
  | nil => rfl
  | cons p ps ih =>
    by_cases hk : p.1 = k
    · simp [alookup, hk] at h
    · simp only [alookup, if_neg hk] at h
      simp [aerase, hk, ih h]

theorem countP_aset_ne {α : Type} {k k' : String} (h : k' ≠ k) (v : α)
    (l : List (String × α)) :
    (aset k v l).countP (fun p => p.1 == k') = l.countP (fun p => p.1 == k') := by
  induction l with
  | nil => simp [aset, List.countP_cons, (Ne.symm h)]
  | cons p ps ih =>
    by_cases hk : p.1 = k
    · subst hk
      simp [aset, List.countP_cons, ih]
    · simp only [aset, if_neg hk]
      simp [List.countP_cons, ih]

theorem countP_eq_zero_of_alookup_none {α : Type} {k : String}
    {l : List (String × α)} (h : alookup k l = none) :
    l.countP (fun p => p.1 == k) = 0 := by
  induction l with
  | nil => simp
  | cons p ps ih =>
    by_cases hk : p.1 = k
    · simp [alookup, hk] at h
    · simp only [alookup, if_neg hk] at h
      simp [List.countP_cons, hk, ih h]

theorem countP_aset_of_none {α : Type} {k : String} (v : α)
    {l : List (String × α)} (h : alookup k l = none) :
    (aset k v l).countP (fun p => p.1 == k) = 1 := by
  induction l with
  | nil => simp [aset, List.countP_cons]
  | cons p ps ih =>
    by_cases hk : p.1 = k
    · simp [alookup, hk] at h
    · simp only [alookup, if_neg hk] at h
      simp [aset, if_neg hk, List.countP_cons, hk, ih h]

theorem alookup_none_of_countP_zero {α : Type} {k : String}
    {l : List (String × α)} (h : l.countP (fun p => p.1 == k) = 0) :
    alookup k l = none := by
  induction l with
  | nil => rfl
  | cons p ps ih =>
    simp only [List.countP_cons] at h
    by_cases hk : p.1 = k
    · simp [hk] at h
    · simp only [alookup, if_neg hk]
      exact ih (by simpa [hk] using h)

theorem alookup_aerase_self {α : Type} {k : String} {l : List (String × α)}
    (h : l.countP (fun p => p.1 == k) ≤ 1) : alookup k (aerase k l) = none := by
  induction l with
  | nil => rfl
  | cons p ps ih =>
    by_cases hk : p.1 = k
    · simp only [aerase, if_pos hk]
      have hc : List.countP (fun q : String × α => q.1 == k) (p :: ps) =
          List.countP (fun q : String × α => q.1 == k) ps + 1 := by
        simp [List.countP_cons, hk]
      rw [hc] at h
      exact alookup_none_of_countP_zero (by omega)
    · simp only [aerase, if_neg hk, alookup, if_neg hk]
      apply ih
      simpa [List.countP_cons, hk] using h

theorem takeClass_all_of_all {p : Char → Bool} :
    ∀ {cs : List Char}, cs.all p = true → takeClass p cs.length cs = some [] := by
  intro cs
  induction cs with
  | nil => intro _; rfl
  | cons c cs ih =>
    intro h
    simp only [List.all_cons, Bool.and_eq_true] at h
    simp [takeClass, h.1, ih h.2]

theorem uncTail_of_stagedTail {cs : List Char} (h : stagedTail cs = true) :
    uncTail cs = true := by
  unfold stagedTail at h
  unfold uncTail
  simp only [beq_iff_eq] at h
  simp [h]

theorem aset_aset {α : Type} (k : String) (v v' : α) (l : List (String × α)) :
    aset k v (aset k v' l) = aset k v l := by
  induction l with
  | nil => simp [aset]
  | cons p ps ih =>
    by_cases hk : p.1 = k
    · simp [aset, hk]
    · simp [aset, hk, ih]

theorem setSlot_gitCache_some {s : ServiceState} {ck : String}
    {e : GitCacheEntry} (slot : String) (item : CachedItem)
    (h : alookup ck s.gitCache = some e) :
    (setSlot s ck slot item).gitCache =
      aset ck { e with cache := aset slot item e.cache } s.gitCache := by
  unfold setSlot
  rw [h]

theorem setSlot_nextId (s : ServiceState) (ck slot : String) (item : CachedItem) :
    (setSlot s ck slot item).nextId = s.nextId := by
  unfold setSlot
  cases alookup ck s.gitCache <;> rfl

theorem setSlot_invocations (s : ServiceState) (ck slot : String)
    (item : CachedItem) :
    (setSlot s ck slot item).invocations = s.invocations := by
  unfold setSlot
  cases alookup ck s.gitCache <;> rfl

theorem setSlot_blameFailEvents (s : ServiceState) (ck slot : String)
    (item : CachedItem) :
    (setSlot s ck slot item).blameFailEvents = s.blameFailEvents := by
  unfold setSlot
  cases alookup ck s.gitCache <;> rfl

theorem setSlot_changeEvents (s : ServiceState) (ck slot : String)
    (item : CachedItem) :
    (setSlot s ck slot item).changeEvents = s.changeEvents := by
  unfold setSlot
  cases alookup ck s.gitCache <;> rfl

theorem setSlot_remotesCache (s : ServiceState) (ck slot : String)
    (item : CachedItem) :
    (setSlot s ck slot item).remotesCache = s.remotesCache := by
  unfold setSlot
  cases alookup ck s.gitCache <;> rfl

theorem asBlame_map (b : Option IGitBlame) :
    asBlame (b.map GitData.blameData) = b := by
  cases b <;> rfl

theorem asLog_map (l : Option IGitLog) :
    asLog (l.map GitData.logData) = l := by
  cases l <;> rfl

theorem blameKey_ne_blame (sh : String) : blameKey (some sh) ≠ "blame" := by
  intro h
  have hlen := congrArg String.length h
  simp only [blameKey, String.length_append] at hlen
  rw [show String.length "blame:" = 6 from rfl,
    show String.length "blame" = 5 from rfl] at hlen
  omega

theorem logKey_ne_log (sh : String) : logKey (some sh) none ≠ "log" := by
  intro h
  have hlen := congrArg String.length h
  simp only [logKey, String.length_append] at hlen
  rw [show String.length "log" = 3 from rfl,
    show String.length ":" = 1 from rfl,
    show String.length "" = 0 from rfl] at hlen
  omega

theorem getBlameForFile_hit {cfg : GitConfig} {s : ServiceState}
    {fsPath : String} {rp sha : Option String} {entry : GitCacheEntry}
    {item : CachedItem} {gr : Except String (Option IGitBlame)}
    (hcache : cfg.useCaching = true)
    (hck : alookup (getCacheEntryKey fsPath) s.gitCache = some entry)
    (hslot : alookup (blameKey sha) entry.cache = some item) :
    getBlameForFile cfg s fsPath rp sha gr =
      ((item.itemId, asBlame item.result), s) := by
  unfold getBlameForFile
  simp only [hcache, if_true, hck, hslot]

theorem getBlameForFile_miss {cfg : GitConfig} {s : ServiceState}
    {fsPath : String} {rp sha : Option String}
    {gr : Except String (Option IGitBlame)}
    (hcache : cfg.useCaching = true)
    (hck : alookup (getCacheEntryKey fsPath) s.gitCache = none) :
    getBlameForFile cfg s fsPath rp sha gr =
      blameRun cfg
        (withCache s (aset (getCacheEntryKey fsPath)
          (freshEntry (getCacheEntryKey fsPath)) s.gitCache))
        fsPath rp (getCacheEntryKey fsPath) (blameKey sha) true gr := by
  unfold getBlameForFile
  simp only [hcache, if_true, hck]
  rfl

theorem blameRun_ok {cfg : GitConfig} {s : ServiceState} {fsPath : String}
    {rp : Option String} {ck slot : String} {b : Option IGitBlame}
    (hig : isIgnored cfg ((splitPath fsPath rp).1) = false) :
    blameRun cfg s fsPath rp ck slot true (Except.ok b) =
      ((s.nextId, b),
        setSlot (bumpRun s) ck slot
          (mkItem s.nextId (b.map GitData.blameData) none)) := by
  unfold blameRun
  simp only [hig, Bool.false_eq_true, if_false, if_true]
  rfl

theorem blameRun_error {cfg : GitConfig} {s : ServiceState} {fsPath : String}
    {rp : Option String} {ck slot : String} {msg : String}
    (hig : isIgnored cfg ((splitPath fsPath rp).1) = false) :
    blameRun cfg s fsPath rp ck slot true (Except.error msg) =
      ((s.nextId, none),
        fireBlameFail
          (setSlot (bumpRun s) ck slot (mkItem 0 none (some msg))) ck) := by
  unfold blameRun
  simp only [hig, Bool.false_eq_true, if_false, if_true]
  rfl

theorem blameRun_ignored {cfg : GitConfig} {s : ServiceState} {fsPath : String}
    {rp : Option String} {ck slot : String}
    {gr : Except String (Option IGitBlame)}
    (hig : isIgnored cfg ((splitPath fsPath rp).1) = true) (hckne : ck ≠ "") :
    blameRun cfg s fsPath rp ck slot true gr =
      ((s.nextId, none),
        fireBlameFail
          (setSlot (bumpId s) ck slot (mkItem s.nextId none none)) ck) := by
  unfold blameRun
  simp only [hig, if_true]
  simp [hckne, bumpId, mkItem]

theorem getDiffForFile_hit {cfg : GitConfig} {s : ServiceState}
    {fileName : String} {sha1 sha2 : Option String} {entry : GitCacheEntry}
    {item : CachedItem} {gr : Except String (Option Unit)}
    (hcache : cfg.useCaching = true)
    (hck : alookup (getCacheEntryKey fileName) s.gitCache = some entry)
    (hslot : alookup (diffKey sha1 sha2) entry.cache = some item) :
    getDiffForFile cfg s fileName sha1 sha2 gr =
      ((item.itemId, asDiff item.result), s) := by
  unfold getDiffForFile
  simp only [hcache, if_true, hck, hslot]

theorem getDiffForFile_miss {cfg : GitConfig} {s : ServiceState}
    {fileName : String} {sha1 sha2 : Option String}
    {gr : Except String (Option Unit)}
    (hcache : cfg.useCaching = true)
    (hck : alookup (getCacheEntryKey fileName) s.gitCache = none) :
    getDiffForFile cfg s fileName sha1 sha2 gr =
      diffRun
        (withCache s (aset (getCacheEntryKey fileName)
          (freshEntry (getCacheEntryKey fileName)) s.gitCache))
        (getCacheEntryKey fileName) (diffKey sha1 sha2) true gr := by
  unfold getDiffForFile
  simp only [hcache, if_true, hck]
  rfl

theorem diffRun_error (s : ServiceState) (ck slot : String) (msg : String) :
    diffRun s ck slot true (Except.error msg) =
      ((s.nextId, none),
        setSlot (bumpRun s) ck slot (mkItem 0 none (some msg))) := by
  unfold diffRun
  simp only [if_true]
  rfl

theorem getLogForFile_hit {cfg : GitConfig} {s : ServiceState}
    {fileName : String} {rp sha : Option String} {maxCount : Option Nat}
    {entry : GitCacheEntry} {item : CachedItem}
    {gr : Except String (Option IGitLog)}
    (hcache : cfg.useCaching = true)
    (hck : alookup (getCacheEntryKey fileName) s.gitCache = some entry)
    (hslot : alookup (logKey sha maxCount) entry.cache = some item) :
    getLogForFile cfg s fileName rp sha maxCount none false gr =
      ((item.itemId, asLog item.result), s) := by
  unfold getLogForFile
  simp only [hcache, Option.isNone_none, Bool.not_false, Bool.and_self,
    if_true, hck, hslot]

theorem getLogForFile_miss {cfg : GitConfig} {s : ServiceState}
    {fileName : String} {rp sha : Option String} {maxCount : Option Nat}
    {gr : Except String (Option IGitLog)}
    (hcache : cfg.useCaching = true)
    (hck : alookup (getCacheEntryKey fileName) s.gitCache = none) :
    getLogForFile cfg s fileName rp sha maxCount none false gr =
      logRun cfg
        (withCache s (aset (getCacheEntryKey fileName)
          (freshEntry (getCacheEntryKey fileName)) s.gitCache))
        fileName rp (getCacheEntryKey fileName) (logKey sha maxCount) true gr := by
  unfold getLogForFile
  simp only [hcache, Option.isNone_none, Bool.not_false, Bool.and_self,
    if_true, hck]
  rfl

theorem logRun_ok {cfg : GitConfig} {s : ServiceState} {fileName : String}
    {rp : Option String} {ck slot : String} {lg : Option IGitLog}
    (hig : isIgnored cfg ((splitPath fileName rp).1) = false) :
    logRun cfg s fileName rp ck slot true (Except.ok lg) =
      ((s.nextId, lg),
        setSlot (bumpRun s) ck slot
          (mkItem s.nextId (lg.map GitData.logData) none)) := by
  unfold logRun
  simp only [hig, Bool.false_eq_true, if_false, if_true]
  rfl

theorem logRun_error {cfg : GitConfig} {s : ServiceState} {fileName : String}
    {rp : Option String} {ck slot : String} {msg : String}
    (hig : isIgnored cfg ((splitPath fileName rp).1) = false) :
    logRun cfg s fileName rp ck slot true (Except.error msg) =
      ((s.nextId, none),
        setSlot (bumpRun s) ck slot (mkItem 0 none (some msg))) := by
  unfold logRun
  simp only [hig, Bool.false_eq_true, if_false, if_true]
  rfl

theorem logRun_ignored {cfg : GitConfig} {s : ServiceState} {fileName : String}
    {rp : Option String} {ck slot : String}
    {gr : Except String (Option IGitLog)}
    (hig : isIgnored cfg ((splitPath fileName rp).1) = true) :
    logRun cfg s fileName rp ck slot true gr =
      ((s.nextId, none),
        setSlot (bumpId s) ck slot (mkItem s.nextId none none)) := by
  unfold logRun
  simp only [hig, if_true]
  rfl

theorem isIgnored_cfgC (file : String) : isIgnored cfgC file = false := rfl

theorem blameRun_invocations_cfgC (s : ServiceState) (fsPath : String)
    (rp : Option String) (ck slot : String)
    (gr : Except String (Option IGitBlame)) :
    (blameRun cfgC s fsPath rp ck slot true gr).2.invocations
      = s.invocations + 1 := by
  cases gr with
  | ok b =>
    rw [blameRun_ok (isIgnored_cfgC _)]
    simp [setSlot_invocations, bumpRun]
  | error m =>
    rw [blameRun_error (isIgnored_cfgC _)]
    simp [fireBlameFail, setSlot_invocations, bumpRun]

theorem logRun_invocations_cfgC (s : ServiceState) (fileName : String)
    (rp : Option String) (ck slot : String)
    (gr : Except String (Option IGitLog)) :
    (logRun cfgC s fileName rp ck slot true gr).2.invocations
      = s.invocations + 1 := by
  cases gr with
  | ok lg =>
    rw [logRun_ok (isIgnored_cfgC _)]
    simp [setSlot_invocations, bumpRun]
  | error m =>
    rw [logRun_error (isIgnored_cfgC _)]
    simp [setSlot_invocations, bumpRun]

theorem gitRequest_found {rs : RunnerState} {ck : Option String}
    {cwd : String} {args : List String} {pid : Nat}
    (hl : alookup (gitCommandKey ck cwd args) rs.pending = some pid) :
    gitRequest rs ck cwd args = { prom := pid, waiting := true, state := rs } := by
  unfold gitRequest
  simp [hl]

theorem gitRequest_pending (rs : RunnerState) (ck : Option String)
    (cwd : String) (args : List String) :
    alookup (gitCommandKey ck cwd args)
        (gitRequest rs ck cwd args).state.pending
      = some (gitRequest rs ck cwd args).prom := by
  cases hl : alookup (gitCommandKey ck cwd args) rs.pending with
  | some pid => simp [gitRequest, hl]
  | none => simp [gitRequest, hl, alookup_aset_self]

theorem gitRequest_pendingCount (rs : RunnerState) (ck : Option String)
    (cwd : String) (args : List String) (k : String)
    (h : pendingCount rs k ≤ 1) :
    pendingCount (gitRequest rs ck cwd args).state k ≤ 1 := by
  cases hl : alookup (gitCommandKey ck cwd args) rs.pending with
  | some pid =>
    rw [gitRequest_found hl]
    exact h
  | none =>
    have hpend : (gitRequest rs ck cwd args).state.pending
        = aset (gitCommandKey ck cwd args) rs.nextId rs.pending := by
      simp [gitRequest, hl]
    unfold pendingCount at h ⊢
    rw [hpend]
    by_cases hk : k = gitCommandKey ck cwd args
    · subst hk
      rw [countP_aset_of_none _ hl]
    · rw [countP_aset_ne hk]
      exact h

/-! ## Claim theorems -/

/-- C1: single-flight de-duplication.  At the Process Runner, a second
request with the same command key (correlation key, working directory and
full caller argument list) issued while the first promise is pending
receives the very same promise, marked as waiting, without any state
change — in particular no second subprocess spawn; the pending map keeps
at most one in-flight promise per key, and settling removes the key from
the map.  At the Git Service, a second getBlameForFile for the same
(normalized lowercase path, slot key) returns the same promise identity
with the service state unchanged, with exactly one runner invocation
between the two calls. -/
theorem single_flight_dedup :
    (∀ (rs : RunnerState) (ck : Option String) (cwd : String)
        (args : List String),
      (gitRequest (gitRequest rs ck cwd args).state ck cwd args).prom
          = (gitRequest rs ck cwd args).prom
      ∧ (gitRequest (gitRequest rs ck cwd args).state ck cwd args).waiting = true
      ∧ (gitRequest (gitRequest rs ck cwd args).state ck cwd args).state
          = (gitRequest rs ck cwd args).state
      ∧ (∀ k, pendingCount rs k ≤ 1 →
          pendingCount (gitRequest rs ck cwd args).state k ≤ 1)
      ∧ (pendingCount rs (gitCommandKey ck cwd args) ≤ 1 →
          alookup (gitCommandKey ck cwd args)
            (gitSettle (gitRequest rs ck cwd args).state ck cwd args).pending
            = none))
    ∧ (∀ (s : ServiceState) (fsPath : String) (rp sha : Option String)
        (b : Option IGitBlame),
        alookup (getCacheEntryKey fsPath) s.gitCache = none →
        getBlameForFile cfgC (getBlameForFile cfgC s fsPath rp sha (Except.ok b)).2
            fsPath rp sha (Except.ok b)
          = ((s.nextId, b), (getBlameForFile cfgC s fsPath rp sha (Except.ok b)).2)
        ∧ (getBlameForFile cfgC s fsPath rp sha (Except.ok b)).1.1 = s.nextId
        ∧ (getBlameForFile cfgC s fsPath rp sha (Except.ok b)).2.invocations
            = s.invocations + 1) := by
  constructor
  · intro rs ck cwd args
    have hfound := gitRequest_found (gitRequest_pending rs ck cwd args)
    refine ⟨?_, ?_, ?_, ?_, ?_⟩
    · rw [hfound]
    · rw [hfound]
    · rw [hfound]
    · exact fun k h => gitRequest_pendingCount rs ck cwd args k h
    · intro h
      unfold gitSettle
      exact alookup_aerase_self
        (gitRequest_pendingCount rs ck cwd args _ h)
  · intro s fsPath rp sha b hck
    have h1 : getBlameForFile cfgC s fsPath rp sha (Except.ok b)
        = ((s.nextId, b),
            setSlot
              (bumpRun (withCache s (aset (getCacheEntryKey fsPath)
                (freshEntry (getCacheEntryKey fsPath)) s.gitCache)))
              (getCacheEntryKey fsPath) (blameKey sha)
              (mkItem s.nextId (b.map GitData.blameData) none)) := by
      rw [getBlameForFile_miss rfl hck, blameRun_ok (isIgnored_cfgC _)]
      rfl
    have hl2 : alookup (getCacheEntryKey fsPath)
        (setSlot
          (bumpRun (withCache s (aset (getCacheEntryKey fsPath)
            (freshEntry (getCacheEntryKey fsPath)) s.gitCache)))
          (getCacheEntryKey fsPath) (blameKey sha)
          (mkItem s.nextId (b.map GitData.blameData) none)).gitCache
        = some { key := getCacheEntryKey fsPath,
                 cache := aset (blameKey sha)
                   (mkItem s.nextId (b.map GitData.blameData) none) [] } := by
      rw [setSlot_gitCache_some (blameKey sha)
        (mkItem s.nextId (b.map GitData.blameData) none)
        (alookup_aset_self (getCacheEntryKey fsPath)
          (freshEntry (getCacheEntryKey fsPath)) s.gitCache)]
      exact alookup_aset_self _ _ _
    have hit := @getBlameForFile_hit cfgC _ _ rp _ _ _ (Except.ok b) rfl hl2
      (alookup_aset_self (blameKey sha)
        (mkItem s.nextId (b.map GitData.blameData) none) [])
    have h2 : getBlameForFile cfgC
        (getBlameForFile cfgC s fsPath rp sha (Except.ok b)).2
        fsPath rp sha (Except.ok b)
        = ((s.nextId, b), (getBlameForFile cfgC s fsPath rp sha (Except.ok b)).2) := by
      rw [h1]
      rw [show (((s.nextId, b),
        setSlot
          (bumpRun (withCache s (aset (getCacheEntryKey fsPath)
            (freshEntry (getCacheEntryKey fsPath)) s.gitCache)))
          (getCacheEntryKey fsPath) (blameKey sha)
          (mkItem s.nextId (b.map GitData.blameData) none)) :
            (Nat × Option IGitBlame) × ServiceState).2
        = setSlot
            (bumpRun (withCache s (aset (getCacheEntryKey fsPath)
              (freshEntry (getCacheEntryKey fsPath)) s.gitCache)))
            (getCacheEntryKey fsPath) (blameKey sha)
            (mkItem s.nextId (b.map GitData.blameData) none) from rfl]
      rw [hit]
      simp [mkItem, asBlame_map]
    refine ⟨h2, ?_, ?_⟩
    · rw [h1]
    · rw [h1]
      simp [setSlot_invocations, bumpRun, withCache]

/-- Witness: single-flight de-duplication exercised from the initial
runner and service states. -/
theorem single_flight_dedup_witness :
    ((gitRequest (gitRequest initialRunnerState none "/repo" ["blame"]).state
        none "/repo" ["blame"]).prom
      = (gitRequest initialRunnerState none "/repo" ["blame"]).prom)
    ∧ alookup (gitCommandKey none "/repo" ["blame"])
        (gitSettle (gitRequest initialRunnerState none "/repo" ["blame"]).state
          none "/repo" ["blame"]).pending = none
    ∧ getBlameForFile cfgC
        (getBlameForFile cfgC initialServiceState "A.ts" none none
          (Except.ok none)).2
        "A.ts" none none (Except.ok none)
      = ((1, none),
          (getBlameForFile cfgC initialServiceState "A.ts" none none
            (Except.ok none)).2) :=
  ⟨(single_flight_dedup.1 initialRunnerState none "/repo" ["blame"]).1,
   (single_flight_dedup.1 initialRunnerState none "/repo" ["blame"]).2.2.2.2
     (by decide),
   (single_flight_dedup.2 initialServiceState "A.ts" none none none rfl).1⟩

/-- C2 counterexample: the claim requires a failure notification for
blame, diff and log failures alike, but a failing diff query stores the
error placeholder while firing no notification at all. -/
theorem cached_failure_counterexample :
    ((alookup "a.ts"
        (getDiffForFile cfgC initialServiceState "a.ts" none none
          (Except.error "fatal: boom")).2.gitCache).map
        (fun e => alookup "diff" e.cache)
      = some (some (mkItem 0 none (some "fatal: boom"))))
    ∧ (getDiffForFile cfgC initialServiceState "a.ts" none none
        (Except.error "fatal: boom")).2.blameFailEvents = [] := by
  refine ⟨?_, ?_⟩ <;> rfl

/-- C2 (amended): when a blame, diff, or log query chain throws and a
cache entry exists, the (file, slot) promise is replaced by the
pre-resolved EmptyPromise (identity 0) of an empty result carrying the
error-message string, and a subsequent request for the same slot returns
that placeholder without invoking the Process Runner again; the
onDidBlameFail notification carrying the failing cache key fires for
blame failures only — diff and log failures store the placeholder but
emit no notification. -/
theorem cached_failure_placeholder_amended :
    ∀ (s : ServiceState) (fsPath : String) (rp : Option String) (msg : String),
      alookup (getCacheEntryKey fsPath) s.gitCache = none →
      (((getBlameForFile cfgC s fsPath rp none (Except.error msg)).2.blameFailEvents
          = s.blameFailEvents ++ [getCacheEntryKey fsPath])
        ∧ ((alookup (getCacheEntryKey fsPath)
            (getBlameForFile cfgC s fsPath rp none (Except.error msg)).2.gitCache).map
            (fun e => alookup "blame" e.cache)
          = some (some (mkItem 0 none (some msg))))
        ∧ getBlameForFile cfgC
            (getBlameForFile cfgC s fsPath rp none (Except.error msg)).2
            fsPath rp none (Except.ok none)
          = ((0, none),
              (getBlameForFile cfgC s fsPath rp none (Except.error msg)).2)
        ∧ (getBlameForFile cfgC s fsPath rp none (Except.error msg)).2.invocations
          = s.invocations + 1)
      ∧ (((getDiffForFile cfgC s fsPath none none (Except.error msg)).2.blameFailEvents
            = s.blameFailEvents)
        ∧ ((alookup (getCacheEntryKey fsPath)
            (getDiffForFile cfgC s fsPath none none (Except.error msg)).2.gitCache).map
            (fun e => alookup "diff" e.cache)
          = some (some (mkItem 0 none (some msg))))
        ∧ getDiffForFile cfgC
            (getDiffForFile cfgC s fsPath none none (Except.error msg)).2
            fsPath none none (Except.ok none)
          = ((0, none),
              (getDiffForFile cfgC s fsPath none none (Except.error msg)).2))
      ∧ (((getLogForFile cfgC s fsPath rp none none none false
              (Except.error msg)).2.blameFailEvents = s.blameFailEvents)
        ∧ ((alookup (getCacheEntryKey fsPath)
            (getLogForFile cfgC s fsPath rp none none none false
              (Except.error msg)).2.gitCache).map
            (fun e => alookup "log" e.cache)
          = some (some (mkItem 0 none (some msg))))
        ∧ getLogForFile cfgC
            (getLogForFile cfgC s fsPath rp none none none false
              (Except.error msg)).2
            fsPath rp none none none false (Except.ok none)
          = ((0, none),
              (getLogForFile cfgC s fsPath rp none none none false
                (Except.error msg)).2)) := by
  intro s fsPath rp msg hck
  have hb : getBlameForFile cfgC s fsPath rp none (Except.error msg)
      = ((s.nextId, none),
          fireBlameFail
            (setSlot
              (bumpRun (withCache s (aset (getCacheEntryKey fsPath)
                (freshEntry (getCacheEntryKey fsPath)) s.gitCache)))
              (getCacheEntryKey fsPath) (blameKey none)
              (mkItem 0 none (some msg)))
            (getCacheEntryKey fsPath)) := by
    rw [getBlameForFile_miss rfl hck, blameRun_error (isIgnored_cfgC _)]
    rfl
  have hbl2 : alookup (getCacheEntryKey fsPath)
      (fireBlameFail
        (setSlot
          (bumpRun (withCache s (aset (getCacheEntryKey fsPath)
            (freshEntry (getCacheEntryKey fsPath)) s.gitCache)))
          (getCacheEntryKey fsPath) (blameKey none)
          (mkItem 0 none (some msg)))
        (getCacheEntryKey fsPath)).gitCache
      = some { key := getCacheEntryKey fsPath,
               cache := aset (blameKey none) (mkItem 0 none (some msg)) [] } := by
    show alookup (getCacheEntryKey fsPath)
      (setSlot
        (bumpRun (withCache s (aset (getCacheEntryKey fsPath)
          (freshEntry (getCacheEntryKey fsPath)) s.gitCache)))
        (getCacheEntryKey fsPath) (blameKey none)
        (mkItem 0 none (some msg))).gitCache = _
    rw [setSlot_gitCache_some (blameKey none) (mkItem 0 none (some msg))
      (alookup_aset_self (getCacheEntryKey fsPath)
        (freshEntry (getCacheEntryKey fsPath)) s.gitCache)]
    exact alookup_aset_self _ _ _
  have hbhit := @getBlameForFile_hit cfgC _ _ rp _ _ _ (Except.ok none) rfl hbl2
    (alookup_aset_self (blameKey none) (mkItem 0 none (some msg)) [])
  have hd : getDiffForFile cfgC s fsPath none none (Except.error msg)
      = ((s.nextId, none),
          setSlot
            (bumpRun (withCache s (aset (getCacheEntryKey fsPath)
              (freshEntry (getCacheEntryKey fsPath)) s.gitCache)))
            (getCacheEntryKey fsPath) (diffKey none none)
            (mkItem 0 none (some msg))) := by
    rw [getDiffForFile_miss rfl hck, diffRun_error]
    rfl
  have hdl2 : alookup (getCacheEntryKey fsPath)
      (setSlot
        (bumpRun (withCache s (aset (getCacheEntryKey fsPath)
          (freshEntry (getCacheEntryKey fsPath)) s.gitCache)))
        (getCacheEntryKey fsPath) (diffKey none none)
        (mkItem 0 none (some msg))).gitCache
      = some { key := getCacheEntryKey fsPath,
               cache := aset (diffKey none none) (mkItem 0 none (some msg)) [] } := by
    rw [setSlot_gitCache_some (diffKey none none) (mkItem 0 none (some msg))
      (alookup_aset_self (getCacheEntryKey fsPath)
        (freshEntry (getCacheEntryKey fsPath)) s.gitCache)]
    exact alookup_aset_self _ _ _
  have hdhit := @getDiffForFile_hit cfgC _ _ _ _ _ _ (Except.ok none) rfl hdl2
    (alookup_aset_self (diffKey none none) (mkItem 0 none (some msg)) [])
  have hl : getLogForFile cfgC s fsPath rp none none none false (Except.error msg)
      = ((s.nextId, none),
          setSlot
            (bumpRun (withCache s (aset (getCacheEntryKey fsPath)
              (freshEntry (getCacheEntryKey fsPath)) s.gitCache)))
            (getCacheEntryKey fsPath) (logKey none none)
            (mkItem 0 none (some msg))) := by
    rw [getLogForFile_miss rfl hck, logRun_error (isIgnored_cfgC _)]
    rfl
  have hll2 : alookup (getCacheEntryKey fsPath)
      (setSlot
        (bumpRun (withCache s (aset (getCacheEntryKey fsPath)
          (freshEntry (getCacheEntryKey fsPath)) s.gitCache)))
        (getCacheEntryKey fsPath) (logKey none none)
        (mkItem 0 none (some msg))).gitCache
      = some { key := getCacheEntryKey fsPath,
               cache := aset (logKey none none) (mkItem 0 none (some msg)) [] } := by
    rw [setSlot_gitCache_some (logKey none none) (mkItem 0 none (some msg))
      (alookup_aset_self (getCacheEntryKey fsPath)
        (freshEntry (getCacheEntryKey fsPath)) s.gitCache)]
    exact alookup_aset_self _ _ _
  have hlhit := @getLogForFile_hit cfgC _ _ rp _ _ _ _ (Except.ok none) rfl hll2
    (alookup_aset_self (logKey none none) (mkItem 0 none (some msg)) [])
  refine ⟨⟨?_, ?_, ?_, ?_⟩, ⟨?_, ?_, ?_⟩, ⟨?_, ?_, ?_⟩⟩
  · rw [hb]
    simp [fireBlameFail, setSlot_blameFailEvents, bumpRun, withCache]
  · rw [hb]
    show (alookup (getCacheEntryKey fsPath) (fireBlameFail _ _).gitCache).map _ = _
    rw [hbl2]
    rfl
  · rw [hb]
    rw [show (((s.nextId, (none : Option IGitBlame)),
        fireBlameFail
          (setSlot
            (bumpRun (withCache s (aset (getCacheEntryKey fsPath)
              (freshEntry (getCacheEntryKey fsPath)) s.gitCache)))
            (getCacheEntryKey fsPath) (blameKey none)
            (mkItem 0 none (some msg)))
          (getCacheEntryKey fsPath)) :
          (Nat × Option IGitBlame) × ServiceState).2
      = fireBlameFail
          (setSlot
            (bumpRun (withCache s (aset (getCacheEntryKey fsPath)
              (freshEntry (getCacheEntryKey fsPath)) s.gitCache)))
            (getCacheEntryKey fsPath) (blameKey none)
            (mkItem 0 none (some msg)))
          (getCacheEntryKey fsPath) from rfl]
    rw [hbhit]
    rfl
  · rw [hb]
    simp [fireBlameFail, setSlot_invocations, bumpRun, withCache]
  · rw [hd]
    simp [setSlot_blameFailEvents, bumpRun, withCache]
  · rw [hd]
    show (alookup (getCacheEntryKey fsPath) (setSlot _ _ _ _).gitCache).map _ = _
    rw [hdl2]
    rfl
  · rw [hd]
    rw [show (((s.nextId, (none : Option Unit)),
        setSlot
          (bumpRun (withCache s (aset (getCacheEntryKey fsPath)
            (freshEntry (getCacheEntryKey fsPath)) s.gitCache)))
          (getCacheEntryKey fsPath) (diffKey none none)
          (mkItem 0 none (some msg))) :
          (Nat × Option Unit) × ServiceState).2
      = setSlot
          (bumpRun (withCache s (aset (getCacheEntryKey fsPath)
            (freshEntry (getCacheEntryKey fsPath)) s.gitCache)))
          (getCacheEntryKey fsPath) (diffKey none none)
          (mkItem 0 none (some msg)) from rfl]
    rw [hdhit]
    rfl
  · rw [hl]
    simp [setSlot_blameFailEvents, bumpRun, withCache]
  · rw [hl]
    show (alookup (getCacheEntryKey fsPath) (setSlot _ _ _ _).gitCache).map _ = _
    rw [hll2]
    rfl
  · rw [hl]
    rw [show (((s.nextId, (none : Option IGitLog)),
        setSlot
          (bumpRun (withCache s (aset (getCacheEntryKey fsPath)
            (freshEntry (getCacheEntryKey fsPath)) s.gitCache)))
          (getCacheEntryKey fsPath) (logKey none none)
          (mkItem 0 none (some msg))) :
          (Nat × Option IGitLog) × ServiceState).2
      = setSlot
          (bumpRun (withCache s (aset (getCacheEntryKey fsPath)
            (freshEntry (getCacheEntryKey fsPath)) s.gitCache)))
          (getCacheEntryKey fsPath) (logKey none none)
          (mkItem 0 none (some msg)) from rfl]
    rw [hlhit]
    rfl

/-- Witness: the amended cached-failure behavior at a concrete file and
message, from the initial service state. -/
theorem cached_failure_placeholder_amended_witness :
    ((getBlameForFile cfgC initialServiceState "w.ts" none none
        (Except.error "err")).2.blameFailEvents = [] ++ ["w.ts"])
    ∧ ((getDiffForFile cfgC initialServiceState "w.ts" none none
        (Except.error "err")).2.blameFailEvents = []) :=
  ⟨((cached_failure_placeholder_amended initialServiceState "w.ts" none "err"
      rfl).1).1,
   ((cached_failure_placeholder_amended initialServiceState "w.ts" none "err"
      rfl).2.1).1⟩

/-- C7: save/close eviction framing.  With caching on and a file-scheme
document: on save, an entry whose cached content is entirely error
placeholders is preserved with no change event; otherwise exactly that
entry is deleted and onDidChangeGitCache fires; on close the entry is
deleted silently; and in every case every other cache key is left
unchanged. -/
theorem save_close_eviction_framing :
    ∀ (cfg : GitConfig) (s : ServiceState) (fileName : String),
      cfg.useCaching = true →
      ((∀ e, alookup (getCacheEntryKey fileName) s.gitCache = some e →
          hasErrors e = true →
          removeCachedEntry cfg s fileName schemeFile
            RemoveCacheReason.documentSaved = s)
      ∧ (∀ e, alookup (getCacheEntryKey fileName) s.gitCache = some e →
          hasErrors e = false →
          (removeCachedEntry cfg s fileName schemeFile
              RemoveCacheReason.documentSaved).gitCache
            = aerase (getCacheEntryKey fileName) s.gitCache
          ∧ (removeCachedEntry cfg s fileName schemeFile
              RemoveCacheReason.documentSaved).changeEvents
            = s.changeEvents + 1)
      ∧ ((removeCachedEntry cfg s fileName schemeFile
            RemoveCacheReason.documentClosed).gitCache
          = aerase (getCacheEntryKey fileName) s.gitCache
        ∧ (removeCachedEntry cfg s fileName schemeFile
            RemoveCacheReason.documentClosed).changeEvents = s.changeEvents
        ∧ (removeCachedEntry cfg s fileName schemeFile
            RemoveCacheReason.documentClosed).blameFailEvents
          = s.blameFailEvents)
      ∧ (∀ k, k ≠ getCacheEntryKey fileName → ∀ reason,
          alookup k (removeCachedEntry cfg s fileName schemeFile
            reason).gitCache = alookup k s.gitCache)) := by
  intro cfg s fileName hcache
  refine ⟨?_, ?_, ?_, ?_⟩
  · intro e he herr
    simp [removeCachedEntry, hcache, he, herr]
  · intro e he herr
    refine ⟨?_, ?_⟩ <;> simp [removeCachedEntry, hcache, he, herr]
  · cases halo : alookup (getCacheEntryKey fileName) s.gitCache with
    | none =>
      refine ⟨?_, ?_, ?_⟩ <;>
        simp [removeCachedEntry, hcache, halo, aerase_of_alookup_none halo]
    | some e =>
      refine ⟨?_, ?_, ?_⟩ <;> simp [removeCachedEntry, hcache, halo]
  · intro k hk reason
    have hcases : (removeCachedEntry cfg s fileName schemeFile reason).gitCache
        = s.gitCache
        ∨ (removeCachedEntry cfg s fileName schemeFile reason).gitCache
          = aerase (getCacheEntryKey fileName) s.gitCache := by
      cases reason with
      | documentClosed =>
        cases halo : alookup (getCacheEntryKey fileName) s.gitCache with
        | none => left; simp [removeCachedEntry, hcache, halo]
        | some e => right; simp [removeCachedEntry, hcache, halo]
      | documentSaved =>
        cases halo : alookup (getCacheEntryKey fileName) s.gitCache with
        | none => left; simp [removeCachedEntry, hcache, halo]
        | some e =>
          cases herr : hasErrors e with
          | true => left; simp [removeCachedEntry, hcache, halo, herr]
          | false => right; simp [removeCachedEntry, hcache, halo, herr]
    cases hcases with
    | inl h => rw [h]
    | inr h =>
      rw [h]
      exact alookup_aerase_ne hk s.gitCache

/-- Witness: the eviction framing on a state caching one known-failing
and one healthy file. -/
theorem save_close_eviction_framing_witness :
    removeCachedEntry cfgC stateW "a.ts" schemeFile
        RemoveCacheReason.documentSaved = stateW
    ∧ (removeCachedEntry cfgC stateW "b.ts" schemeFile
        RemoveCacheReason.documentSaved).changeEvents
      = stateW.changeEvents + 1
    ∧ (removeCachedEntry cfgC stateW "b.ts" schemeFile
        RemoveCacheReason.documentClosed).changeEvents = stateW.changeEvents
    ∧ alookup "a.ts" (removeCachedEntry cfgC stateW "b.ts" schemeFile
        RemoveCacheReason.documentClosed).gitCache
      = alookup "a.ts" stateW.gitCache :=
  ⟨(save_close_eviction_framing cfgC stateW "a.ts" rfl).1 entryErrW
      (by decide) (by decide),
   ((save_close_eviction_framing cfgC stateW "b.ts" rfl).2.1 entryOkW
      (by decide) (by decide)).2,
   ((save_close_eviction_framing cfgC stateW "b.ts" rfl).2.2.1).2.1,
   (save_close_eviction_framing cfgC stateW "b.ts" rfl).2.2.2 "a.ts"
      (by decide) RemoveCacheReason.documentClosed⟩

/-- C8: gitignored-file short-circuit.  With caching on, a loaded
matcher that ignores the target file, and a truthy cache key, a blame
query resolves to the empty placeholder with no runner invocation and
fires onDidBlameFail with the entry key; a log query likewise resolves
empty without invocation but fires no notification. -/
theorem gitignored_short_circuit :
    ∀ (cfg : GitConfig) (s : ServiceState) (fsPath : String)
      (rp : Option String) (gb : Except String (Option IGitBlame))
      (gl : Except String (Option IGitLog)),
      cfg.useCaching = true →
      isIgnored cfg ((splitPath fsPath rp).1) = true →
      alookup (getCacheEntryKey fsPath) s.gitCache = none →
      getCacheEntryKey fsPath ≠ "" →
      (((getBlameForFile cfg s fsPath rp none gb).1.2 = none)
        ∧ (getBlameForFile cfg s fsPath rp none gb).2.invocations
          = s.invocations
        ∧ (getBlameForFile cfg s fsPath rp none gb).2.blameFailEvents
          = s.blameFailEvents ++ [getCacheEntryKey fsPath])
      ∧ (((getLogForFile cfg s fsPath rp none none none false gl).1.2 = none)
        ∧ (getLogForFile cfg s fsPath rp none none none false gl).2.invocations
          = s.invocations
        ∧ (getLogForFile cfg s fsPath rp none none none false
            gl).2.blameFailEvents = s.blameFailEvents) := by
  intro cfg s fsPath rp gb gl hcache hig hck hckne
  have h1 : getBlameForFile cfg s fsPath rp none gb
      = ((s.nextId, none),
          fireBlameFail
            (setSlot
              (bumpId (withCache s (aset (getCacheEntryKey fsPath)
                (freshEntry (getCacheEntryKey fsPath)) s.gitCache)))
              (getCacheEntryKey fsPath) (blameKey none)
              (mkItem s.nextId none none))
            (getCacheEntryKey fsPath)) := by
    rw [getBlameForFile_miss hcache hck, blameRun_ignored hig hckne]
    rfl
  have h2 : getLogForFile cfg s fsPath rp none none none false gl
      = ((s.nextId, none),
          setSlot
            (bumpId (withCache s (aset (getCacheEntryKey fsPath)
              (freshEntry (getCacheEntryKey fsPath)) s.gitCache)))
            (getCacheEntryKey fsPath) (logKey none none)
            (mkItem s.nextId none none)) := by
    rw [getLogForFile_miss hcache hck, logRun_ignored hig]
    rfl
  refine ⟨⟨?_, ?_, ?_⟩, ⟨?_, ?_, ?_⟩⟩
  · rw [h1]
  · rw [h1]
    simp [fireBlameFail, setSlot_invocations, bumpId, withCache]
  · rw [h1]
    simp [fireBlameFail, setSlot_blameFailEvents, bumpId, withCache]
  · rw [h2]
  · rw [h2]
    simp [setSlot_invocations, bumpId, withCache]
  · rw [h2]
    simp [setSlot_blameFailEvents, bumpId, withCache]

/-- Witness: the gitignored short-circuit under an ignore-everything
matcher from the initial state. -/
theorem gitignored_short_circuit_witness :
    ((getBlameForFile cfgIgnAll initialServiceState "x.ts" none none
        (Except.ok none)).2.invocations = 0)
    ∧ ((getBlameForFile cfgIgnAll initialServiceState "x.ts" none none
        (Except.ok none)).2.blameFailEvents = [] ++ [getCacheEntryKey "x.ts"])
    ∧ ((getLogForFile cfgIgnAll initialServiceState "x.ts" none none none
        none false (Except.ok none)).2.invocations = 0) :=
  ⟨((gitignored_short_circuit cfgIgnAll initialServiceState "x.ts" none
      (Except.ok none) (Except.ok none) rfl rfl rfl (by decide)).1).2.1,
   ((gitignored_short_circuit cfgIgnAll initialServiceState "x.ts" none
      (Except.ok none) (Except.ok none) rfl rfl rfl (by decide)).1).2.2,
   ((gitignored_short_circuit cfgIgnAll initialServiceState "x.ts" none
      (Except.ok none) (Except.ok none) rfl rfl rfl (by decide)).2).2.1⟩

/-- C9: partial-result reuse.  On an exact miss of a revision-scoped
blame or log slot with a resolved whole-file entry present, the service
returns the whole-file promise exactly when the whole-file result
contains the requested revision in its commits map; when the revision is
absent, or no whole-file slot exists, a new runner invocation is
issued. -/
theorem whole_file_reuse :
    (∀ (s : ServiceState) (fsPath : String) (rp : Option String)
        (sh : String) (entry : GitCacheEntry) (whole : CachedItem)
        (b : IGitBlame) (gr : Except String (Option IGitBlame)),
      alookup (getCacheEntryKey fsPath) s.gitCache = some entry →
      alookup (blameKey (some sh)) entry.cache = none →
      alookup "blame" entry.cache = some whole →
      whole.result = some (GitData.blameData b) →
      (hasCommitB b sh = true →
        getBlameForFile cfgC s fsPath rp (some sh) gr
          = ((whole.itemId, some b), s))
      ∧ (hasCommitB b sh = false →
        (getBlameForFile cfgC s fsPath rp (some sh) gr).2.invocations
          = s.invocations + 1))
    ∧ (∀ (s : ServiceState) (fsPath : String) (rp : Option String)
        (sh : String) (entry : GitCacheEntry)
        (gr : Except String (Option IGitBlame)),
      alookup (getCacheEntryKey fsPath) s.gitCache = some entry →
      alookup (blameKey (some sh)) entry.cache = none →
      alookup "blame" entry.cache = none →
      (getBlameForFile cfgC s fsPath rp (some sh) gr).2.invocations
        = s.invocations + 1)
    ∧ (∀ (s : ServiceState) (fileName : String) (rp : Option String)
        (sh : String) (entry : GitCacheEntry) (whole : CachedItem)
        (lg : IGitLog) (gr : Except String (Option IGitLog)),
      alookup (getCacheEntryKey fileName) s.gitCache = some entry →
      alookup (logKey (some sh) none) entry.cache = none →
      alookup "log" entry.cache = some whole →
      whole.result = some (GitData.logData lg) →
      (hasCommitL lg sh = true →
        getLogForFile cfgC s fileName rp (some sh) none none false gr
          = ((whole.itemId, some lg), s))
      ∧ (hasCommitL lg sh = false →
        (getLogForFile cfgC s fileName rp (some sh) none none false
          gr).2.invocations = s.invocations + 1)) := by
  refine ⟨?_, ?_, ?_⟩
  · intro s fsPath rp sh entry whole b gr hentry hmiss hwhole hres
    constructor
    · intro hhas
      simp [getBlameForFile, cfgC, hentry, hmiss, blameKey_ne_blame sh,
        hwhole, hres, asBlame, hhas]
    · intro hhas
      simp only [getBlameForFile, cfgC, hentry, hmiss, blameKey_ne_blame sh,
        hwhole, hres, asBlame, hhas]
      simp only [blameKey_ne_blame sh, hhas, Option.getD_some,
        Bool.false_eq_true, if_false, if_true, ite_true, ite_false,
        reduceCtorEq]
      exact blameRun_invocations_cfgC s fsPath rp (getCacheEntryKey fsPath)
        (blameKey (some sh)) gr
  · intro s fsPath rp sh entry gr hentry hmiss hwhole
    simp only [getBlameForFile, cfgC, hentry, hmiss, blameKey_ne_blame sh,
      hwhole]
    exact blameRun_invocations_cfgC s fsPath rp (getCacheEntryKey fsPath)
      (blameKey (some sh)) gr
  · intro s fileName rp sh entry whole lg gr hentry hmiss hwhole hres
    constructor
    · intro hhas
      simp [getLogForFile, cfgC, hentry, hmiss, logKey_ne_log sh,
        hwhole, hres, asLog, hhas]
    · intro hhas
      simp only [getLogForFile, cfgC, hentry, hmiss, logKey_ne_log sh,
        hwhole, hres, asLog, hhas]
      simp only [logKey_ne_log sh, hhas, Option.getD_some,
        Bool.false_eq_true, if_false, if_true, ite_true, ite_false,
        reduceCtorEq]
      exact logRun_invocations_cfgC s fileName rp (getCacheEntryKey fileName)
        (logKey (some sh) none) gr

/-- Witness: whole-file reuse at concrete cached states — a cached
revision is served from the whole-file promise, an uncached one triggers
an invocation. -/
theorem whole_file_reuse_witness :
    (getBlameForFile cfgC stateWhole "f.ts" none (some "A")
        (Except.error "no") = ((7, some blameWhole), stateWhole))
    ∧ ((getBlameForFile cfgC stateWhole "f.ts" none (some "Z")
        (Except.ok none)).2.invocations = stateWhole.invocations + 1)
    ∧ (getLogForFile cfgC stateWhole "g.ts" none (some "A") none none false
        (Except.error "no") = ((9, some logWhole), stateWhole)) :=
  ⟨(whole_file_reuse.1 stateWhole "f.ts" none "A" entryWhole
      (mkItem 7 (some (GitData.blameData blameWhole)) none) blameWhole
      (Except.error "no") (by decide) (by decide) (by decide) rfl).1
      (by decide),
   (whole_file_reuse.1 stateWhole "f.ts" none "Z" entryWhole
      (mkItem 7 (some (GitData.blameData blameWhole)) none) blameWhole
      (Except.ok none) (by decide) (by decide) (by decide) rfl).2
      (by decide),
   (whole_file_reuse.2.2 stateWhole "g.ts" none "A" entryWholeLog
      (mkItem 9 (some (GitData.logData logWhole)) none) logWhole
      (Except.error "no") (by decide) (by decide) (by decide) rfl).1
      (by decide)⟩

/-- C5 counterexample: the claim asserts that the valid-commit-ID
classification (Git.isSha) returns false for both all-zero sentinel
forms, but shaRegex matches any 40 lowercase-hex characters, so the
working-tree sentinel of forty zeros is classified as a valid sha. -/
theorem revision_classification_counterexample :
    Git.isSha Git.uncommittedSha ≠ false := by decide

/-- C5 (amended): every 40-character lowercase-hex string satisfies
Git.isSha — including the all-zero working-tree sentinel, for which
isSha returns true rather than false; only the colon-suffixed index
sentinel fails isSha; Git.isUncommitted accepts the working-tree sentinel
and Git.isStagedUncommitted accepts the index sentinel. -/
theorem revision_classification_amended :
    (∀ s : String, s.data.length = 40 → s.data.all isHexLower = true →
      Git.isSha s = true)
    ∧ Git.isSha Git.uncommittedSha = true
    ∧ Git.isSha Git.stagedUncommittedSha = false
    ∧ Git.isUncommitted (some Git.uncommittedSha) = true
    ∧ Git.isStagedUncommitted (some Git.stagedUncommittedSha) = true := by
  refine ⟨?_, by decide, by decide, by decide, by decide⟩
  intro s h1 h2
  unfold Git.isSha Git.shaRegexTest
  rw [← h1, takeClass_all_of_all h2]
  rfl

/-- Witness: the amended revision classification at a concrete 40-hex
string. -/
theorem revision_classification_amended_witness :
    Git.isSha "0123456789abcdef0123456789abcdef01234567" = true :=
  revision_classification_amended.1 "0123456789abcdef0123456789abcdef01234567"
    (by decide) (by decide)

/-- C10: the staged-uncommitted sentinel classification implies the
uncommitted classification — uncommittedRegex optionally accepts the
trailing colon that stagedUncommittedRegex requires, so the two
predicates are not mutually exclusive. -/
theorem staged_implies_uncommitted :
    ∀ s : Option String,
      Git.isStagedUncommitted s = true → Git.isUncommitted s = true := by
  intro s h
  match s with
  | none => exact absurd h (by simp [Git.isStagedUncommitted])
  | some str =>
    have h2 : (match takeClass (fun c => c = '0') 40 str.data with
      | some rest => stagedTail rest
      | none => false) = true := h
    show (match takeClass (fun c => c = '0') 40 str.data with
      | some rest => uncTail rest
      | none => false) = true
    cases htc : takeClass (fun c => c = '0') 40 str.data with
    | none =>
      rw [htc] at h2
      exact absurd h2 (by simp)
    | some rest =>
      rw [htc] at h2
      exact uncTail_of_stagedTail h2

/-- Witness: the index sentinel is classified as staged-uncommitted and
hence also as uncommitted. -/
theorem staged_implies_uncommitted_witness :
    Git.isUncommitted (some Git.stagedUncommittedSha) = true :=
  staged_implies_uncommitted (some Git.stagedUncommittedSha) (by decide)

/-- C3: defaultExceptionHandler resolves a subprocess failure to the
empty string exactly when the message matches one of the ten fixed
GitWarnings patterns (not a repository, outside repository, no such
path, no commits, path does not exist in revision, path exists on disk
but not in revision, HEAD not a branch, no upstream configured, unknown
revision, must run in a work tree); every other failure re-throws the
original exception. -/
theorem benign_error_classification :
    ∀ msg : String,
      (isGitWarning msg = true → defaultExceptionHandler msg = Except.ok "")
      ∧ (isGitWarning msg = false →
          defaultExceptionHandler msg = Except.error msg) := by
  intro msg
  constructor
  · intro h
    by_cases hm : msg = ""
    · rw [hm] at h
      exact absurd h (by decide)
    · simp [defaultExceptionHandler, hm, h]
  · intro h
    by_cases hm : msg = ""
    · simp [defaultExceptionHandler, hm]
    · simp [defaultExceptionHandler, hm, h]

/-- Witness: a classified-benign message resolves to the empty string
and an unclassified one re-throws. -/
theorem benign_error_classification_witness :
    defaultExceptionHandler
        "fatal: Not a git repository (or any of the parent directories): .git"
      = Except.ok ""
    ∧ defaultExceptionHandler "fatal: unexpected explosion"
      = Except.error "fatal: unexpected explosion" :=
  ⟨(benign_error_classification
      "fatal: Not a git repository (or any of the parent directories): .git").1
      (by decide),
   (benign_error_classification "fatal: unexpected explosion").2 (by decide)⟩

/-- C4: restricting the 100-line two-revision blame to lines [10, 60]
with getBlameForRangeSync yields exactly revisions A and B, with 40 and
11 in-range lines respectively, the author aggregation rebuilt from only
the in-range lines and re-sorted descending by line count, the 51 sliced
line records, and the untouched full line list; the function is a pure
transformation of the given blame — it takes no runner or service state
and thus performs no Process Runner invocation. -/
theorem blame_range_restriction :
    ((getBlameForRangeSync blameAB 10 60).commits.map (fun p => p.1) = ["A", "B"])
    ∧ ((getBlameForRangeSync blameAB 10 60).commits.map
        (fun p => p.2.lines.length) = [40, 11])
    ∧ ((getBlameForRangeSync blameAB 10 60).authors.map
        (fun p => (p.1, p.2.lineCount)) = [("Alice", 40), ("Bob", 11)])
    ∧ (getBlameForRangeSync blameAB 10 60).lines.length = 51
    ∧ (getBlameForRangeSync blameAB 10 60).allLines = blameAB.lines := by
  refine ⟨?_, ?_, ?_, ?_, ?_⟩ <;> rfl

/-- C6 counterexample: the claim asserts that an index-file change clears
the remotes cache as well, but _onGitChanged clears only the per-file git
cache — a cached remotes list survives the index change. -/
theorem index_change_counterexample :
    (onGitChanged
      { initialServiceState with remotesCache := [("/repo", ["origin"])] }
    ).remotesCache ≠ [] := by decide

/-- C6 (amended): on an index-file change _onGitChanged clears the entire
per-file git cache and fires onDidChangeGitCache, leaving the remotes
cache (and everything else) untouched; the remotes cache is cleared only
by the caching-disabled configuration branch, which fires no event. -/
theorem index_change_invalidation_amended :
    ∀ s : ServiceState,
      (onGitChanged s).gitCache = []
      ∧ (onGitChanged s).changeEvents = s.changeEvents + 1
      ∧ (onGitChanged s).remotesCache = s.remotesCache
      ∧ (onGitChanged s).blameFailEvents = s.blameFailEvents
      ∧ (onGitChanged s).invocations = s.invocations
      ∧ (onCachingDisabled s).gitCache = []
      ∧ (onCachingDisabled s).remotesCache = []
      ∧ (onCachingDisabled s).changeEvents = s.changeEvents :=
  fun _ => ⟨rfl, rfl, rfl, rfl, rfl, rfl, rfl, rfl⟩

end GitLens
